import Mathlib

/-
Shallow embedding of the release-radar pipeline (src/app.py).
The remote music service is modelled by an environment of response data;
each endpoint helper mirrors the corresponding method of class SpotifyAPI,
and generate_playlist mirrors the orchestrating route handler.
-/

namespace ReleaseRadar

/-- An artist object as returned by the remote service: identifier plus display name. -/
structure Artist where
  id : String
  name : String
deriving DecidableEq

/-- An album object: identifier, display name, release-date string and the ordered
list of contributing artist objects (first entry is the primary attribution). -/
structure Album where
  id : String
  name : String
  release_date : String
  artists : List Artist
deriving DecidableEq

/-- A raw track object from the album-tracks endpoint: uri and name. -/
structure RawTrack where
  uri : String
  name : String
deriving DecidableEq

/-- A flattened track record exactly as appended to recent_tracks in
generate_playlist: uri, name, primary artist name, album name, release date. -/
structure Track where
  uri : String
  name : String
  artist : String
  album : String
  release_date : String
deriving DecidableEq

/-- One response of the followed-artists listing endpoint, as seen through
make_request. `noData` is a falsy response (None after a 401, or an empty
object), which the loop treats as the end of the walk; `missing` is a truthy
response that lacks the expected artists/items structure, on which the Python
code raises KeyError; `ok items hasNext` carries the page items and whether
the response advertises a further page. -/
inductive PageResult where
  | noData
  | missing
  | ok (items : List Artist) (hasNext : Bool)
deriving DecidableEq

/-- A generic endpoint response: falsy (`noData`), truthy but lacking the
expected field (`missing`, a KeyError in the Python code), or `ok` with data. -/
inductive Resp (α : Type) where
  | noData
  | missing
  | ok (v : α)

/-- The remote-service data an orchestrator run sees, plus the stored playlist
response. `albums aid` is the full server-side album listing of an artist (the
endpoint returns at most the requested limit of it); `userId = none` models a
falsy profile response. -/
structure Env where
  followedPages : List PageResult
  related : String → Resp (List Artist)
  albums : String → List Album
  albumTracks : String → List RawTrack
  userId : Option String
  playlistUrl : String

/-- The pagination loop of get_followed_artists. The server is modelled as the
list of successive page responses; `acc` is the accumulated artists list and
`n` the number of page requests issued so far. An exhausted trace (first case)
never occurs on the well-formed traces used below, where every walk ends in a
page with hasNext = false or in a noData response. Errors model uncaught
Python exceptions. -/
def collectPages : List PageResult → List Artist → Nat → Except String (List Artist × Nat)
  | [], acc, n => .ok (acc, n)
  | .noData :: _, acc, n => .ok (acc, n + 1)
  | .missing :: _, _, _ => .error "KeyError"
  | .ok items hasNext :: rest, acc, n =>
    if hasNext then collectPages rest (acc ++ items) (n + 1)
    else .ok (acc ++ items, n + 1)

/-- get_followed_artists: walk every page from the start, returning the
collected artists together with the number of page requests issued. -/
def get_followed_artists (pages : List PageResult) : Except String (List Artist × Nat) :=
  collectPages pages [] 0

/-- get_related_artists: the body is `data["artists"] if data else []`, so a
falsy response yields the empty list, while a truthy response without the
artists field raises KeyError. -/
def get_related_artists (r : Resp (List Artist)) : Except String (List Artist) :=
  match r with
  | .noData => .ok []
  | .missing => .error "KeyError"
  | .ok v => .ok v

/-- Insertion into the growing all_artists set. The Python set is modelled as
a duplicate-free list whose iteration order is its insertion order. -/
def insertId (s : List String) (a : String) : List String :=
  if a ∈ s then s else s ++ [a]

/-- The expansion loop of generate_playlist: for each followed artist, add its
id, fetch its related artists and add the ids of the first five of them
(related_artists[:5]). The loop never stops early, whatever size the set
reaches. -/
def expandArtists (env : Env) : List Artist → List String → Except String (List String)
  | [], s => .ok s
  | a :: rest, s =>
    match get_related_artists (env.related a.id) with
    | .error e => .error e
    | .ok rel =>
      expandArtists env rest ((rel.take 5).foldl (fun acc r => insertId acc r.id) (insertId s a.id))

/-- A parsed calendar date, year then month then day. -/
structure Date where
  year : Nat
  month : Nat
  day : Nat
deriving DecidableEq

/-- Numeric value of a digit string. -/
def digitsVal (cs : List Char) : Nat :=
  cs.foldl (fun n c => n * 10 + (c.toNat - 48)) 0

/-- Split a character list on the dash character, keeping empty groups. -/
def splitDash (cs : List Char) : List (List Char) :=
  cs.foldr
    (fun c acc =>
      if c = '-' then [] :: acc
      else
        match acc with
        | g :: gs => (c :: g) :: gs
        | [] => [[c]])
    [[]]

/-- Gregorian leap-year test, as validated by datetime. -/
def isLeap (y : Nat) : Bool :=
  (y % 4 = 0 && !(y % 100 = 0)) || y % 400 = 0

/-- Number of days of a month, as validated by datetime. -/
def daysInMonth (y m : Nat) : Nat :=
  if m = 2 then (if isLeap y then 29 else 28)
  else if m = 4 ∨ m = 6 ∨ m = 9 ∨ m = 11 then 30
  else 31

/-- strptime with format "%Y-%m-%d": four year digits, dash, one or two month
digits, dash, one or two day digits, with datetime range validation (year at
least 1, month 1..12, day within the month). -/
def parseFullDate (s : String) : Option Date :=
  match splitDash s.toList with
  | [y, m, d] =>
    if y.length = 4 ∧ y.all Char.isDigit = true
        ∧ 1 ≤ m.length ∧ m.length ≤ 2 ∧ m.all Char.isDigit = true
        ∧ 1 ≤ d.length ∧ d.length ≤ 2 ∧ d.all Char.isDigit = true then
      if 1 ≤ digitsVal y ∧ 1 ≤ digitsVal m ∧ digitsVal m ≤ 12
          ∧ 1 ≤ digitsVal d ∧ digitsVal d ≤ daysInMonth (digitsVal y) (digitsVal m) then
        some ⟨digitsVal y, digitsVal m, digitsVal d⟩
      else none
    else none
  | _ => none

/-- strptime with format "%Y": exactly four digits, yielding January 1st of
that year (datetime requires a year of at least 1). -/
def parseYear (s : String) : Option Date :=
  if s.toList.length = 4 ∧ s.toList.all Char.isDigit = true ∧ 1 ≤ digitsVal s.toList then
    some ⟨digitsVal s.toList, 1, 1⟩
  else none

/-- Line 248 of app.py: a 10-character release date is parsed with format
"%Y-%m-%d", any other length with format "%Y"; a failed parse is a
ValueError, modelled as `none` and propagated as an error by processAlbum. -/
def parseReleaseDate (s : String) : Option Date :=
  if s.length = 10 then parseFullDate s else parseYear s

/-- Days elapsed since 0000-03-01 of the proleptic Gregorian calendar, for
years of at least 1 (the range datetime accepts). -/
def daysFromCivil (y m d : Nat) : Nat :=
  let yAdj := if m ≤ 2 then y - 1 else y
  let era := yAdj / 400
  let yoe := yAdj % 400
  let mp := (m + 9) % 12
  let doy := (153 * mp + 2) / 5 + d - 1
  era * 146097 + yoe * 365 + yoe / 4 - yoe / 100 + doy

/-- The instant (in seconds) of midnight of a parsed date, matching the
datetime value returned by strptime. -/
def Date.toInstant (dt : Date) : Int :=
  ((daysFromCivil dt.year dt.month dt.day : Nat) : Int) * 86400

/-- one_week_ago = datetime.now() - timedelta(days=7), in seconds. -/
def one_week_ago (now : Int) : Int :=
  now - 7 * 86400

/-- The window test of line 250: release_date >= one_week_ago. -/
def albumQualifies (releaseInstant now : Int) : Bool :=
  decide (one_week_ago now ≤ releaseInstant)

/-- The inner flattening loop of generate_playlist: one record appended per
raw track, carrying the track uri and name together with the name of the
first listed album artist, the album name and the release-date string.
An empty artist list is an IndexError, raised only when a track is present. -/
def flattenAlbum (album : Album) : List RawTrack → Except String (List Track)
  | [] => .ok []
  | t :: ts =>
    match album.artists with
    | [] => .error "IndexError"
    | a :: _ =>
      match flattenAlbum album ts with
      | .error e => .error e
      | .ok rest => .ok (⟨t.uri, t.name, a.name, album.name, album.release_date⟩ :: rest)

/-- get_artist_albums: a single request whose response holds at most `limit`
entries of the server-side listing; the function is never called twice for an
artist and fetches no further page. -/
def get_artist_albums (env : Env) (artist_id : String) (limit : Nat) : List Album :=
  (env.albums artist_id).take limit

/-- get_album_tracks: the track listing of an album. -/
def get_album_tracks (env : Env) (album_id : String) : List RawTrack :=
  env.albumTracks album_id

/-- Per-album step of the filter loop: parse the release date (a failure is a
ValueError), test the window, and only on success fetch the album tracks and
flatten them. The second component counts track-fetch requests (0 or 1). -/
def processAlbum (env : Env) (now : Int) (album : Album) : Except String (List Track × Nat) :=
  match parseReleaseDate album.release_date with
  | none => .error "ValueError"
  | some d =>
    if albumQualifies d.toInstant now then
      match flattenAlbum album (get_album_tracks env album.id) with
      | .error e => .error e
      | .ok ts => .ok (ts, 1)
    else .ok ([], 0)

/-- The inner album loop for one artist: process the fetched albums in order,
concatenating tracks and summing track-fetch counts. -/
def processAlbums (env : Env) (now : Int) : List Album → Except String (List Track × Nat)
  | [] => .ok ([], 0)
  | album :: rest =>
    match processAlbum env now album with
    | .error e => .error e
    | .ok (ts, f) =>
      match processAlbums env now rest with
      | .error e => .error e
      | .ok (ts2, f2) => .ok (ts ++ ts2, f + f2)

/-- Request accounting of the filter stage: number of track-fetch calls and
number of album-listing calls. -/
structure FilterStats where
  trackFetches : Nat
  albumRequests : Nat
deriving DecidableEq

/-- The outer filter loop of generate_playlist: for each artist id one
album-listing request with limit 10, then the per-album processing. -/
def collectRecent (env : Env) (now : Int) : List String → Except String (List Track × FilterStats)
  | [] => .ok ([], ⟨0, 0⟩)
  | aid :: rest =>
    match processAlbums env now (get_artist_albums env aid 10) with
    | .error e => .error e
    | .ok (ts, f) =>
      match collectRecent env now rest with
      | .error e => .error e
      | .ok (ts2, st) => .ok (ts ++ ts2, ⟨f + st.trackFetches, 1 + st.albumRequests⟩)

/-- Fuel-indexed chunking of a list into consecutive slices of length `n`
(the fuel, instantiated with the list length, only serves termination). -/
def chunkListAux {α : Type} (n : Nat) : Nat → List α → List (List α)
  | _, [] => []
  | 0, _ :: _ => []
  | fuel + 1, x :: xs => ((x :: xs).take n) :: chunkListAux n fuel ((x :: xs).drop n)

/-- Consecutive slices l[0:n], l[n:2n], ... of a list. -/
def chunksOf {α : Type} (n : Nat) (l : List α) : List (List α) :=
  chunkListAux n l.length l

/-- The slice lengths of chunksOf, as a function of the list length alone. -/
def lenChunks (n : Nat) : Nat → Nat → List Nat
  | _, 0 => []
  | 0, _ + 1 => []
  | fuel + 1, len + 1 => min n (len + 1) :: lenChunks n fuel (len + 1 - n)

/-- add_tracks_to_playlist: the loop `for i in range(0, len(track_uris), 100)`
posts the slice track_uris[i:i+100] per iteration; the returned value is the
list of posted batches in order. -/
def add_tracks_to_playlist (track_uris : List String) : List (List String) :=
  chunksOf 100 track_uris

/-- The JSON outcome of a successful run of the route handler: either the
no-recent-releases message or the success payload with playlist name, url,
track count and a ten-track preview. -/
inductive Outcome where
  | message (text : String)
  | success (playlist_name playlist_url : String) (tracks_added : Nat) (preview : List Track)
deriving DecidableEq

/-- Remote-write accounting of a run: playlist-create calls, the batches
posted by add_tracks_to_playlist, and the filter-stage request counts. -/
structure RunCalls where
  createCalls : Nat
  addBatches : List (List String)
  stats : FilterStats

/-- The discovery part of generate_playlist: collect followed artists, expand
with related artists, truncate the set to its first 50 members, and run the
release-window filter over those. -/
def pipelineRecent (env : Env) (now : Int) : Except String (List Track × FilterStats) :=
  match get_followed_artists env.followedPages with
  | .error e => .error e
  | .ok (followed, _) =>
    match expandArtists env followed [] with
    | .error e => .error e
    | .ok ids => collectRecent env now (ids.take 50)

/-- The route handler generate_playlist. An empty flattened list short-circuits
to the no-recent-releases message with no create and no add call; otherwise a
falsy profile response is fatal (subscripting None raises), and on success one
playlist is created and the uris are posted in batches. `Except.error` models
the exception caught at the handler boundary and returned as a 500 error. -/
def generate_playlist (env : Env) (now : Int) (today : String) :
    Except String (Outcome × RunCalls) :=
  match pipelineRecent env now with
  | .error e => .error e
  | .ok (recent, st) =>
    if recent.isEmpty then
      .ok (.message "No recent releases found from the last week", ⟨0, [], st⟩)
    else
      match env.userId with
      | none => .error "TypeError"
      | some _ =>
        .ok (.success ("Weekly Discoveries - " ++ today) env.playlistUrl
              recent.length (recent.take 10),
            ⟨1, add_tracks_to_playlist (recent.map Track.uri), st⟩)

/-- A well-formed server trace for a page list: every page advertises a next
page except the last; an empty listing is served as one empty final page. -/
def mkTrace : List (List Artist) → List PageResult
  | [] => [.ok [] false]
  | [p] => [.ok p false]
  | p :: q :: rest => .ok p true :: mkTrace (q :: rest)

/-- A server trace of pages that all advertise a further page. -/
def pagesTrace (pages : List (List Artist)) : List PageResult :=
  pages.map (fun p => .ok p true)

/-- Concrete data for witness instantiations. -/
def artistA : Artist := ⟨"idA", "Artist A"⟩

def artistB : Artist := ⟨"idB", "Artist B"⟩

def artistC : Artist := ⟨"idC", "Artist C"⟩

def albumW : Album := ⟨"alb1", "Album One", "2024-03-15", [artistA]⟩

def rawTrackW : RawTrack := ⟨"uri1", "Song One"⟩

def envW : Env :=
  ⟨[.ok [] false], fun _ => .ok [], fun _ => [], fun _ => [], some "user", "url"⟩

def envW2 : Env :=
  ⟨[.ok [artistA] false], fun _ => .ok [artistB], fun _ => [], fun _ => [], some "user", "url"⟩

def env401 : Env :=
  ⟨[.noData], fun _ => .ok [], fun _ => [], fun _ => [], some "user", "url"⟩

theorem chunkListAux_flatten {α : Type} (n : Nat) (hn : 0 < n) :
    ∀ (fuel : Nat) (l : List α), l.length ≤ fuel → (chunkListAux n fuel l).flatten = l := by
  intro fuel
  induction fuel with
  | zero =>
    intro l hl
    cases l with
    | nil => simp [chunkListAux]
    | cons x xs => simp at hl
  | succ fuel ih =>
    intro l hl
    cases l with
    | nil => simp [chunkListAux]
    | cons x xs =>
      simp only [chunkListAux, List.flatten_cons]
      rw [ih ((x :: xs).drop n)
        (by simp only [List.length_drop, List.length_cons]
            simp only [List.length_cons] at hl
            omega)]
      exact List.take_append_drop n (x :: xs)

theorem chunksOf_flatten {α : Type} (n : Nat) (hn : 0 < n) (l : List α) :
    (chunksOf n l).flatten = l :=
  chunkListAux_flatten n hn l.length l (le_refl _)

theorem chunkListAux_length_le {α : Type} (n : Nat) :
    ∀ (fuel : Nat) (l : List α) (b : List α), b ∈ chunkListAux n fuel l → b.length ≤ n := by
  intro fuel
  induction fuel with
  | zero =>
    intro l b hb
    cases l with
    | nil => simp [chunkListAux] at hb
    | cons x xs => simp [chunkListAux] at hb
  | succ fuel ih =>
    intro l b hb
    cases l with
    | nil => simp [chunkListAux] at hb
    | cons x xs =>
      simp only [chunkListAux, List.mem_cons] at hb
      rcases hb with rfl | hb
      · simp [List.length_take]
      · exact ih _ _ hb

theorem chunkListAux_map_length {α : Type} (n : Nat) :
    ∀ (fuel : Nat) (l : List α),
      (chunkListAux n fuel l).map List.length = lenChunks n fuel l.length := by
  intro fuel
  induction fuel with
  | zero =>
    intro l
    cases l with
    | nil => simp [chunkListAux, lenChunks]
    | cons x xs => simp [chunkListAux, lenChunks]
  | succ fuel ih =>
    intro l
    cases l with
    | nil => simp [chunkListAux, lenChunks]
    | cons x xs =>
      simp only [chunkListAux, List.map_cons]
      rw [ih]
      simp [lenChunks, List.length_take, List.length_drop]

/-- Claim C5: the materializer posts the track uris in consecutive batches of
at most 100, in the original order, preserving every occurrence exactly once
across the batches; any 250-uri input yields exactly the batch sizes
100, 100, 50. -/
theorem materializer_batching (uris : List String) :
    (∀ b ∈ add_tracks_to_playlist uris, b.length ≤ 100)
    ∧ (add_tracks_to_playlist uris).flatten = uris
    ∧ (∀ u, ((add_tracks_to_playlist uris).map (List.count u)).sum = uris.count u)
    ∧ (∀ l : List String, l.length = 250 →
        (add_tracks_to_playlist l).map List.length = [100, 100, 50]) := by
  refine ⟨?_, ?_, ?_, ?_⟩
  · intro b hb
    exact chunkListAux_length_le 100 uris.length uris b hb
  · exact chunksOf_flatten 100 (by omega) uris
  · intro u
    rw [← List.count_flatten]
    unfold add_tracks_to_playlist
    rw [chunksOf_flatten 100 (by omega) uris]
  · intro l hl
    unfold add_tracks_to_playlist chunksOf
    rw [chunkListAux_map_length, hl]
    decide

/-- Claim C5 witness: a concrete batch of a concrete input is within the
100-uri limit. -/
theorem materializer_batching_witness : (["u1"] : List String).length ≤ 100 :=
  (materializer_batching ["u1"]).1 ["u1"] (by decide)

/-- Claim C4: a 10-character release date is parsed with the full-date format
and any other length with the bare-year format; a bare year parses to January
1st of that year; the strings 2024 and 2024-03-15 parse as stated. -/
theorem release_date_parsing (s : String) :
    (s.length = 10 → parseReleaseDate s = parseFullDate s)
    ∧ (s.length ≠ 10 → parseReleaseDate s = parseYear s)
    ∧ (∀ d, parseYear s = some d → d.month = 1 ∧ d.day = 1)
    ∧ parseReleaseDate "2024" = some ⟨2024, 1, 1⟩
    ∧ parseReleaseDate "2024-03-15" = some ⟨2024, 3, 15⟩ := by
  refine ⟨?_, ?_, ?_, by decide, by decide⟩
  · intro h; simp [parseReleaseDate, h]
  · intro h; simp [parseReleaseDate, h]
  · intro d hd
    unfold parseYear at hd
    split at hd
    · cases hd; simp
    · cases hd

/-- Claim C4 witness: a non-10-character string goes through the bare-year
format. -/
theorem release_date_parsing_witness : parseReleaseDate "2024" = parseYear "2024" :=
  (release_date_parsing "2024").2.1 (by decide)

/-- Claim C9 counterexample: a related-artists response that is present but
lacks the artists field is not treated as empty data; it raises a KeyError
that aborts the run. -/
theorem missing_field_not_no_data :
    get_related_artists Resp.missing = .error "KeyError"
    ∧ get_related_artists Resp.missing ≠ .ok [] := by
  refine ⟨rfl, ?_⟩
  intro h
  exact Except.noConfusion h

/-- Claim C9 amended: a falsy response (None after an unauthorized call, or an
empty object) is treated as no data, yielding an empty result; a truthy
response lacking the expected field raises a KeyError that surfaces as a run
failure, for the related-artists call and the followed-artists walk alike. -/
theorem missing_field_amended (rest : List PageResult) (acc : List Artist) (n : Nat) :
    get_related_artists Resp.noData = .ok []
    ∧ (∀ l, get_related_artists (Resp.ok l) = .ok l)
    ∧ get_related_artists Resp.missing = .error "KeyError"
    ∧ collectPages (PageResult.noData :: rest) acc n = .ok (acc, n + 1)
    ∧ collectPages (PageResult.missing :: rest) acc n = .error "KeyError" :=
  ⟨rfl, fun _ => rfl, rfl, rfl, rfl⟩

theorem collectPages_mkTrace (pages : List (List Artist)) :
    ∀ (acc : List Artist) (n : Nat),
      collectPages (mkTrace pages) acc n =
        .ok (acc ++ pages.flatten, n + (mkTrace pages).length) := by
  induction pages with
  | nil => intro acc n; simp [mkTrace, collectPages]
  | cons p rest ih =>
    intro acc n
    cases rest with
    | nil => simp [mkTrace, collectPages]
    | cons q rest2 =>
      simp only [mkTrace, collectPages, if_true]
      rw [ih]
      simp only [List.flatten_cons, List.append_assoc, List.length_cons,
        Except.ok.injEq, Prod.mk.injEq, true_and]
      omega

/-- Claim C1: for every artist list and every positive page size, walking the
paginated listing returns exactly the served artists, in server order, with
one request per served page; if the served artists are distinct so is the
result. -/
theorem collector_pagination (L : List Artist) (P : Nat) (hP : 0 < P) :
    get_followed_artists (mkTrace (chunksOf P L)) =
      .ok (L, (mkTrace (chunksOf P L)).length)
    ∧ (L.Nodup →
        ∀ res, get_followed_artists (mkTrace (chunksOf P L)) = .ok res → res.1.Nodup) := by
  have h1 : get_followed_artists (mkTrace (chunksOf P L)) =
      .ok (L, (mkTrace (chunksOf P L)).length) := by
    show collectPages (mkTrace (chunksOf P L)) [] 0 = _
    rw [collectPages_mkTrace]
    simp [chunksOf_flatten P hP L]
  refine ⟨h1, ?_⟩
  intro hnd res hres
  rw [h1] at hres
  cases hres
  exact hnd

/-- Claim C1 witness: three artists served in pages of two are collected in
order with two requests. -/
theorem collector_pagination_witness :
    get_followed_artists (mkTrace (chunksOf 2 [artistA, artistB, artistC])) =
      .ok ([artistA, artistB, artistC], 2) :=
  (collector_pagination [artistA, artistB, artistC] 2 (by decide)).1

theorem collectPages_pagesTrace (pages : List (List Artist)) :
    ∀ (rest : List PageResult) (acc : List Artist) (n : Nat),
      collectPages (pagesTrace pages ++ .noData :: rest) acc n =
        .ok (acc ++ pages.flatten, n + pages.length + 1) := by
  induction pages with
  | nil => intro rest acc n; simp [pagesTrace, collectPages]
  | cons p ps ih =>
    intro rest acc n
    show collectPages (pagesTrace ps ++ PageResult.noData :: rest) (acc ++ p) (n + 1) = _
    rw [ih]
    simp only [List.flatten_cons, List.append_assoc, List.length_cons,
      Except.ok.injEq, Prod.mk.injEq, true_and]
    omega

/-- Claim C7: an unauthorized (falsy) page response aborts the walk, returning
exactly the artists of the pages already fetched with no further request; when
it happens on the first page, the collector returns the empty list and the run
reports the no-recent-releases message instead of raising. -/
theorem collector_unauthorized_truncation (env : Env) (now : Int) (today : String)
    (pages : List (List Artist)) (rest : List PageResult)
    (h : env.followedPages = pagesTrace pages ++ .noData :: rest) :
    get_followed_artists env.followedPages = .ok (pages.flatten, pages.length + 1)
    ∧ (pages = [] →
        generate_playlist env now today =
          .ok (.message "No recent releases found from the last week", ⟨0, [], ⟨0, 0⟩⟩)) := by
  constructor
  · show collectPages env.followedPages [] 0 = _
    rw [h, collectPages_pagesTrace]
    simp
  · intro hp
    subst hp
    have h0 : env.followedPages = .noData :: rest := by simpa [pagesTrace] using h
    unfold generate_playlist pipelineRecent get_followed_artists
    rw [h0]
    simp [collectPages, expandArtists, collectRecent]

/-- Claim C7 witness: the concrete run whose first page response is falsy
returns the empty artist list after one request. -/
theorem collector_unauthorized_truncation_witness :
    get_followed_artists env401.followedPages = .ok ([], 1) :=
  (collector_unauthorized_truncation env401 0 "2024-03-15" [] [] rfl).1

/-- Claim C3: an album qualifies exactly when its parsed release instant is at
least now minus 7 days; the instant exactly 7 days old is included, the one a
second older is excluded, and a non-qualifying album causes no track fetch. -/
theorem release_window_boundary (env : Env) (now : Int) (album : Album) (d : Date)
    (hparse : parseReleaseDate album.release_date = some d) :
    (albumQualifies d.toInstant now = true ↔ now - 7 * 86400 ≤ d.toInstant)
    ∧ albumQualifies (now - 7 * 86400) now = true
    ∧ albumQualifies (now - (7 * 86400 + 1)) now = false
    ∧ (albumQualifies d.toInstant now = false →
        processAlbum env now album = .ok ([], 0)) := by
  refine ⟨?_, ?_, ?_, ?_⟩
  · simp [albumQualifies, one_week_ago]
  · simp [albumQualifies, one_week_ago]
  · simp only [albumQualifies, one_week_ago, decide_eq_false_iff_not, not_le]
    omega
  · intro hq
    unfold processAlbum
    rw [hparse]
    simp [hq]

/-- Claim C3 witness: the concrete album released exactly at the window edge
qualifies. -/
theorem release_window_boundary_witness :
    albumQualifies ((0 : Int) - 7 * 86400) 0 = true :=
  (release_window_boundary envW 0 albumW ⟨2024, 3, 15⟩ rfl).2.1

/-- Claim C8: flattening a qualifying album is a pure per-track map: one
record per raw track, in order, carrying the track uri and name with the
first-listed album artist name, the album name and the release-date string,
with no filtering and no deduplication. -/
theorem flattener_pure (album : Album) (raw : List RawTrack) (a : Artist) (rest : List Artist)
    (h : album.artists = a :: rest) :
    flattenAlbum album raw =
      .ok (raw.map fun t => ⟨t.uri, t.name, a.name, album.name, album.release_date⟩) := by
  induction raw with
  | nil => simp [flattenAlbum]
  | cons t ts ih =>
    unfold flattenAlbum
    rw [h, ih]
    rfl

/-- Claim C8 witness: the concrete album and track flatten to the expected
single record. -/
theorem flattener_pure_witness :
    flattenAlbum albumW [rawTrackW] =
      .ok [⟨"uri1", "Song One", "Artist A", "Album One", "2024-03-15"⟩] :=
  flattener_pure albumW [rawTrackW] artistA [] rfl

theorem collectRecent_albumRequests (env : Env) (now : Int) :
    ∀ (ids : List String) (ts : List Track) (st : FilterStats),
      collectRecent env now ids = .ok (ts, st) → st.albumRequests = ids.length := by
  intro ids
  induction ids with
  | nil =>
    intro ts st h
    cases h
    rfl
  | cons aid rest ih =>
    intro ts st h
    unfold collectRecent at h
    cases h1 : processAlbums env now (get_artist_albums env aid 10) with
    | error e => rw [h1] at h; cases h
    | ok p =>
      rw [h1] at h
      cases h2 : collectRecent env now rest with
      | error e => rw [h2] at h; cases h
      | ok q =>
        obtain ⟨ts2, st2⟩ := q
        rw [h2] at h
        cases h
        have h3 := ih ts2 st2 h2
        show 1 + st2.albumRequests = rest.length + 1
        omega

/-- Claim C10: the album listing of an artist is fetched as one page of at
most 10 entries (the truncation of the full server listing to its first 10),
so listings beyond the first 10 are never examined whatever their dates, and
the filter issues exactly one album-listing request per artist. -/
theorem albums_single_page (env : Env) (now : Int) (aid : String) :
    get_artist_albums env aid 10 = (env.albums aid).take 10
    ∧ (get_artist_albums env aid 10).length ≤ 10
    ∧ ((env.albums aid).Nodup →
        ∀ album ∈ (env.albums aid).drop 10, album ∉ get_artist_albums env aid 10)
    ∧ (∀ ids ts st, collectRecent env now ids = .ok (ts, st) →
        st.albumRequests = ids.length) := by
  refine ⟨rfl, ?_, ?_, ?_⟩
  · simp [get_artist_albums, List.length_take]
  · intro hnd album hmem
    have hd : List.Disjoint ((env.albums aid).take 10) ((env.albums aid).drop 10) :=
      List.disjoint_take_drop hnd (le_refl 10)
    exact fun h2 => hd h2 hmem
  · exact fun ids ts st h => collectRecent_albumRequests env now ids ts st h

/-- Claim C10 witness: with no artists to examine, no album-listing request is
issued. -/
theorem albums_single_page_witness : (0 : Nat) = ([] : List String).length :=
  (albums_single_page envW 0 "idA").2.2.2 [] [] ⟨0, 0⟩ rfl

theorem mem_insertId_self (s : List String) (a : String) : a ∈ insertId s a := by
  unfold insertId
  split
  · assumption
  · simp

theorem mem_insertId_of_mem {s : List String} {x : String} (a : String) (h : x ∈ s) :
    x ∈ insertId s a := by
  unfold insertId
  split
  · exact h
  · simp [h]

theorem mem_insertId {s : List String} {x a : String} (h : x ∈ insertId s a) :
    x ∈ s ∨ x = a := by
  unfold insertId at h
  split at h
  · exact .inl h
  · simpa using h

theorem insertId_nodup {s : List String} (a : String) (h : s.Nodup) :
    (insertId s a).Nodup := by
  unfold insertId
  split
  · exact h
  · rename_i hna
    simp [List.nodup_append, h, List.disjoint_singleton, hna]

theorem insertId_length (s : List String) (a : String) :
    (insertId s a).length ≤ s.length + 1 := by
  unfold insertId
  split
  · omega
  · simp

theorem foldl_insert_mem_of_mem (l : List Artist) :
    ∀ (s : List String) (x : String), x ∈ s →
      x ∈ l.foldl (fun acc r => insertId acc r.id) s := by
  induction l with
  | nil => intro s x h; exact h
  | cons r rest ih => intro s x h; exact ih _ _ (mem_insertId_of_mem r.id h)

theorem mem_foldl_insert (l : List Artist) :
    ∀ (s : List String) (x : String), x ∈ l.foldl (fun acc r => insertId acc r.id) s →
      x ∈ s ∨ ∃ r ∈ l, x = r.id := by
  induction l with
  | nil => intro s x h; exact .inl h
  | cons r rest ih =>
    intro s x h
    rcases ih _ _ h with h2 | ⟨r2, hr2, hx⟩
    · rcases mem_insertId h2 with h3 | h3
      · exact .inl h3
      · exact .inr ⟨r, by simp, h3⟩
    · exact .inr ⟨r2, by simp [hr2], hx⟩

theorem foldl_insert_nodup (l : List Artist) :
    ∀ s : List String, s.Nodup → (l.foldl (fun acc r => insertId acc r.id) s).Nodup := by
  induction l with
  | nil => intro s h; exact h
  | cons r rest ih => intro s h; exact ih _ (insertId_nodup r.id h)

theorem foldl_insert_length (l : List Artist) :
    ∀ s : List String, (l.foldl (fun acc r => insertId acc r.id) s).length ≤
      s.length + l.length := by
  induction l with
  | nil => intro s; simp
  | cons r rest ih =>
    intro s
    simp only [List.foldl_cons, List.length_cons]
    have h1 := ih (insertId s r.id)
    have h2 := insertId_length s r.id
    omega

theorem expand_mem_of_mem (env : Env) (seeds : List Artist) :
    ∀ (s ids : List String), expandArtists env seeds s = .ok ids →
      ∀ x ∈ s, x ∈ ids := by
  induction seeds with
  | nil =>
    intro s ids h x hx
    cases h
    exact hx
  | cons a rest ih =>
    intro s ids h x hx
    unfold expandArtists at h
    cases hrel : get_related_artists (env.related a.id) with
    | error e => rw [hrel] at h; cases h
    | ok rel =>
      rw [hrel] at h
      exact ih _ _ h x (foldl_insert_mem_of_mem _ _ _ (mem_insertId_of_mem a.id hx))

theorem expand_seed_mem (env : Env) (seeds : List Artist) :
    ∀ (s ids : List String), expandArtists env seeds s = .ok ids →
      ∀ a ∈ seeds, a.id ∈ ids := by
  induction seeds with
  | nil => intro s ids h a ha; simp at ha
  | cons a0 rest ih =>
    intro s ids h a ha
    unfold expandArtists at h
    cases hrel : get_related_artists (env.related a0.id) with
    | error e => rw [hrel] at h; cases h
    | ok rel =>
      rw [hrel] at h
      rcases List.mem_cons.mp ha with rfl | ha2
      · exact expand_mem_of_mem env rest _ _ h a.id
          (foldl_insert_mem_of_mem _ _ _ (mem_insertId_self s a.id))
      · exact ih _ _ h a ha2

theorem expand_mem (env : Env) (seeds : List Artist) :
    ∀ (s ids : List String), expandArtists env seeds s = .ok ids →
      ∀ x ∈ ids, x ∈ s ∨ ∃ a ∈ seeds, x = a.id ∨
        ∃ rel, get_related_artists (env.related a.id) = .ok rel
          ∧ x ∈ (rel.take 5).map Artist.id := by
  induction seeds with
  | nil =>
    intro s ids h x hx
    cases h
    exact .inl hx
  | cons a rest ih =>
    intro s ids h x hx
    unfold expandArtists at h
    cases hrel : get_related_artists (env.related a.id) with
    | error e => rw [hrel] at h; cases h
    | ok rel =>
      rw [hrel] at h
      rcases ih _ _ h x hx with hs | ⟨a2, ha2, hcase⟩
      · rcases mem_foldl_insert _ _ _ hs with hs2 | ⟨r, hr, hx2⟩
        · rcases mem_insertId hs2 with hs3 | hs3
          · exact .inl hs3
          · exact .inr ⟨a, by simp, .inl hs3⟩
        · exact .inr ⟨a, by simp, .inr ⟨rel, hrel, List.mem_map.mpr ⟨r, hr, hx2.symm⟩⟩⟩
      · exact .inr ⟨a2, by simp [ha2], hcase⟩

theorem expand_nodup (env : Env) (seeds : List Artist) :
    ∀ (s ids : List String), s.Nodup → expandArtists env seeds s = .ok ids →
      ids.Nodup := by
  induction seeds with
  | nil =>
    intro s ids hs h
    cases h
    exact hs
  | cons a rest ih =>
    intro s ids hs h
    unfold expandArtists at h
    cases hrel : get_related_artists (env.related a.id) with
    | error e => rw [hrel] at h; cases h
    | ok rel =>
      rw [hrel] at h
      exact ih _ _ (foldl_insert_nodup _ _ (insertId_nodup a.id hs)) h

theorem expand_length (env : Env) (seeds : List Artist) :
    ∀ (s ids : List String), expandArtists env seeds s = .ok ids →
      ids.length ≤ s.length + 6 * seeds.length := by
  induction seeds with
  | nil =>
    intro s ids h
    cases h
    simp
  | cons a rest ih =>
    intro s ids h
    unfold expandArtists at h
    cases hrel : get_related_artists (env.related a.id) with
    | error e => rw [hrel] at h; cases h
    | ok rel =>
      rw [hrel] at h
      have h1 := ih _ _ h
      have h2 := foldl_insert_length (rel.take 5) (insertId s a.id)
      have h3 := insertId_length s a.id
      have h4 : (rel.take 5).length ≤ 5 := by simp [List.length_take]
      simp only [List.length_cons]
      omega

/-- Claim C2: expansion inserts every seed, and every member of the resulting
set is a seed or one of the first five related artists of some seed; the set
is duplicate-free, its size is bounded by six entries per seed, expansion runs
over all seeds with no early stop, and the 50-artist cap is applied only
afterwards, when the filter stage receives the first 50 members of the fully
expanded set. -/
theorem expander_caps (env : Env) (followed : List Artist) (ids : List String)
    (h : expandArtists env followed [] = .ok ids) :
    (∀ a ∈ followed, a.id ∈ ids)
    ∧ (∀ x ∈ ids, ∃ a ∈ followed, x = a.id ∨
        ∃ rel, get_related_artists (env.related a.id) = .ok rel
          ∧ x ∈ (rel.take 5).map Artist.id)
    ∧ ids.Nodup
    ∧ ids.length ≤ 6 * followed.length
    ∧ (∀ (now : Int) (r : Nat),
        get_followed_artists env.followedPages = .ok (followed, r) →
        pipelineRecent env now = collectRecent env now (ids.take 50)) := by
  refine ⟨expand_seed_mem env followed [] ids h, ?_, ?_, ?_, ?_⟩
  · intro x hx
    rcases expand_mem env followed [] ids h x hx with h2 | h2
    · simp at h2
    · exact h2
  · exact expand_nodup env followed [] ids List.nodup_nil h
  · have := expand_length env followed [] ids h
    simpa using this
  · intro now r hfol
    unfold pipelineRecent
    rw [hfol]
    show (match expandArtists env followed [] with
      | .error e => Except.error e
      | .ok ids => collectRecent env now (ids.take 50)) = _
    rw [h]

/-- Claim C2 witness: in the concrete run with one followed artist, the seed
id is a member of the expanded set. -/
theorem expander_caps_witness : "idA" ∈ ["idA", "idB"] :=
  (expander_caps envW2 [artistA] ["idA", "idB"] rfl).1 artistA (by decide)

/-- Claim C6: when the flattened qualifying-track list is empty the run
returns the no-recent-releases message with zero playlist-create calls and no
track-add batch, and in every run a playlist-create call implies at least one
qualifying track. -/
theorem empty_result_no_create (env : Env) (now : Int) (today : String) (st : FilterStats)
    (h : pipelineRecent env now = .ok ([], st)) :
    generate_playlist env now today =
      .ok (.message "No recent releases found from the last week", ⟨0, [], st⟩)
    ∧ (∀ (env2 : Env) (now2 : Int) (today2 : String) (out : Outcome) (calls : RunCalls),
        generate_playlist env2 now2 today2 = .ok (out, calls) → calls.createCalls ≠ 0 →
        ∃ t ts st2, pipelineRecent env2 now2 = .ok (t :: ts, st2)) := by
  constructor
  · unfold generate_playlist
    rw [h]
    rfl
  · intro env2 now2 today2 out calls hgen hcreate
    unfold generate_playlist at hgen
    cases hpr : pipelineRecent env2 now2 with
    | error e => rw [hpr] at hgen; cases hgen
    | ok p =>
      obtain ⟨recent, st2⟩ := p
      rw [hpr] at hgen
      cases recent with
      | nil =>
        simp only [List.isEmpty_nil, if_true] at hgen
        cases hgen
        exact absurd rfl hcreate
      | cons t ts =>
        exact ⟨t, ts, st2, rfl⟩

/-- Claim C6 witness: the concrete run with no followed artists returns the
message outcome with zero create calls and no batch. -/
theorem empty_result_no_create_witness :
    generate_playlist envW 0 "2024-03-15" =
      .ok (.message "No recent releases found from the last week", ⟨0, [], ⟨0, 0⟩⟩) :=
  (empty_result_no_create envW 0 "2024-03-15" ⟨0, 0⟩ rfl).1

end ReleaseRadar
